import Mathlib

/-
  Verification development for the `rate_limiter` repository (Go).

  The core of the repository is `limiter.PulseLimiter`: a token-bucket rate
  limiter whose bucket is a buffered Go channel `source` of capacity `burst`.
  A background loop (`ServeTokens`) pushes one empty-struct token into the
  channel per refill interval; acquisition calls (`AcquireToken`,
  `TryAcquireToken`) race a channel receive against context cancellation and
  (for the blocking variant) a timeout.  An HTTP admission filter
  (`server.LimiterServer.enforceLimits`) gates each request on `AcquireToken`
  and, on success, delegates to a forwarding handler (`eventHandler`).

  The embedding below models the buffered channel explicitly (its buffer
  occupancy and closed flag), models each Go `select` as a nondeterministic
  choice among its enabled arms (Go resolves a select with several ready
  cases pseudo-randomly, so no arm may be given priority), and models the
  interleaving of the generation loop with concurrent acquirers as a labelled
  transition system.
-/

namespace RateLimit

/-- State of the buffered Go channel `p.source`: `buf` is the number of
tokens currently buffered (the implicit token count), `closed` records
whether `close(sender)` has been executed.  Per Go semantics a receive on a
closed buffered channel still yields buffered values (with `ok = true`)
until the buffer drains; only then does it yield `ok = false`. -/
structure ChanState where
  buf : Nat
  closed : Bool
  deriving DecidableEq, Repr

/-- The interval types of the limiter package: `Msec`, `Sec`, `Min`
(the enumerated `IntervalType` constants). -/
inductive IntervalType where
  | Msec
  | Sec
  | Min
  deriving DecidableEq, Repr

/-- `intervalTypeToDuration` from the limiter package, in nanoseconds
(Go `time.Duration` is an `int64` count of nanoseconds):
`Msec ↦ 1ms`, `Sec ↦ 1s`, `Min ↦ 1min`. -/
def intervalTypeToDuration : IntervalType → Int
  | .Msec => 1000000
  | .Sec => 1000000000
  | .Min => 60000000000

/-- The `PulseLimiter` struct: the refill `interval` (a `time.Duration`,
i.e. nanoseconds) and the bucket, represented by the capacity `burstCap`
of the buffered channel `source` (the Go struct stores the channel itself;
its buffer occupancy lives in `ChanState`). -/
structure PulseLimiter where
  interval : Int
  burstCap : Nat
  deriving DecidableEq, Repr

/-- `NewPulseLimiter(items, interval, burst)`: fails when `items <= 0` or
`burst <= 0`; otherwise the refill interval is
`intervalTypeToDuration(interval).Nanoseconds() / int64(items)` (Go `int64`
division, i.e. truncated division of positives) and the bucket is a fresh
buffered channel of capacity `burst`. -/
def newPulseLimiter (items : Int) (interval : IntervalType) (burst : Int) :
    Except String PulseLimiter :=
  if items ≤ 0 then
    Except.error "\x27items\x27 must be positive"
  else if burst ≤ 0 then
    Except.error "\x27burst\x27 must be positive"
  else
    Except.ok ⟨Int.tdiv (intervalTypeToDuration interval) items, burst.toNat⟩

/-- The three arms of the `select` in `AcquireToken`:
`<-ctx.Done()`, `<-ctime` (the timeout ticker), `<-p.source`. -/
inductive AcqArm where
  | ctxDone
  | timeFired
  | source
  deriving DecidableEq, Repr

/-- Which arms of `AcquireToken`'s select can fire: `<-ctx.Done()` once the
context is cancelled; `<-ctime` only when a nonzero timeout was passed
(`timeout == 0` leaves `ctime` the nil channel, which never fires) and its
ticker has ticked; `<-p.source` when a token is buffered or the channel is
closed (a receive on a closed channel never blocks). -/
def acqArmEnabled (timeoutNonZero : Bool) (cancelled : Bool) (c : ChanState) :
    AcqArm → Bool
  | .ctxDone => cancelled
  | .timeFired => timeoutNonZero
  | .source => decide (0 < c.buf) || c.closed

/-- Body of `AcquireToken`'s select, per chosen arm: cancellation returns
`(false, "context canceled")`; the timeout arm returns `(false, nil)`;
the receive arm consumes one buffered token and returns `(true, nil)` when
one is present, and returns `(false, "channel closed")` when the channel is
closed and drained (`ok == false`).  The channel state after the call is
returned alongside. -/
def acquireToken (c : ChanState) : AcqArm → (Bool × Option String) × ChanState
  | .ctxDone => ((false, some "context canceled"), c)
  | .timeFired => ((false, none), c)
  | .source =>
    if 0 < c.buf then ((true, none), ⟨c.buf - 1, c.closed⟩)
    else ((false, some "channel closed"), c)

/-- The three arms of the `select` in `TryAcquireToken`:
`<-ctx.Done()`, `<-p.source`, and the `default` branch. -/
inductive TryArm where
  | ctxDone
  | source
  | dflt
  deriving DecidableEq, Repr

/-- Which arms of `TryAcquireToken`'s select can fire.  Per Go semantics the
`default` branch runs exactly when no other case is ready, so the select
never suspends. -/
def tryArmEnabled (cancelled : Bool) (c : ChanState) : TryArm → Bool
  | .ctxDone => cancelled
  | .source => decide (0 < c.buf) || c.closed
  | .dflt => !(cancelled || decide (0 < c.buf) || c.closed)

/-- Body of `TryAcquireToken`'s select, per chosen arm; the `default` branch
returns `(false, nil)` immediately. -/
def tryAcquireToken (c : ChanState) : TryArm → (Bool × Option String) × ChanState
  | .ctxDone => ((false, some "context canceled"), c)
  | .source =>
    if 0 < c.buf then ((true, none), ⟨c.buf - 1, c.closed⟩)
    else ((false, some "channel closed"), c)
  | .dflt => ((false, none), c)

/-- Control position of the `ServeTokens` goroutine: `selecting` at the top
of the loop (inside the select racing `<-ctx.Done()` against
`sender <- struct{}{}`), `sleeping d` inside `time.Sleep(d)` right after a
successful send, `done` after `close(sender); break Loop`. -/
inductive LoopPhase where
  | selecting
  | sleeping (d : Int)
  | done
  deriving DecidableEq, Repr

/-- Global state of one limiter run: the channel, whether the shared
context has been cancelled, and the generation loop's control position. -/
structure SysState where
  chan : ChanState
  cancelled : Bool
  phase : LoopPhase
  deriving DecidableEq, Repr

/-- Initial state: empty open channel (fresh `make(chan struct{}, burst)`),
context not cancelled, loop at the top of its body. -/
def initState : SysState := ⟨⟨0, false⟩, false, LoopPhase.selecting⟩

/-- One interleaving step of the system for a limiter `p` (whose channel has
capacity `p.burstCap`).  The loop steps come from `ServeTokens`; the
`consume` step is the successful-receive arm of a concurrent `AcquireToken`
or `TryAcquireToken`; acquisition arms that do not touch the channel leave
the state unchanged and need no step.  `loopAdd` requires buffer room: a
send on a full buffered channel blocks, so no transition exists for it
while the channel is at capacity. -/
inductive Step (p : PulseLimiter) : SysState → SysState → Prop where
  | cancel (c : ChanState) (ph : LoopPhase) :
      Step p ⟨c, false, ph⟩ ⟨c, true, ph⟩
  | loopClose (c : ChanState) :
      Step p ⟨c, true, LoopPhase.selecting⟩
        ⟨⟨c.buf, true⟩, true, LoopPhase.done⟩
  | loopAdd (c : ChanState) (cc : Bool) (h : c.buf < p.burstCap)
      (hop : c.closed = false) :
      Step p ⟨c, cc, LoopPhase.selecting⟩
        ⟨⟨c.buf + 1, c.closed⟩, cc, LoopPhase.sleeping p.interval⟩
  | loopWake (c : ChanState) (cc : Bool) (d : Int) :
      Step p ⟨c, cc, LoopPhase.sleeping d⟩ ⟨c, cc, LoopPhase.selecting⟩
  | consume (c : ChanState) (cc : Bool) (ph : LoopPhase) (h : 0 < c.buf) :
      Step p ⟨c, cc, ph⟩ ⟨⟨c.buf - 1, c.closed⟩, cc, ph⟩

/-- States reachable from the initial state by interleaving the generation
loop with concurrent acquirers. -/
inductive Reachable (p : PulseLimiter) : SysState → Prop where
  | init : Reachable p initState
  | step {s s' : SysState} : Reachable p s → Step p s s' → Reachable p s'

/-- An HTTP request as seen by the server layer: `body` is `r.Body`,
`none` standing for a nil (absent) body. -/
structure Request where
  body : Option String
  deriving DecidableEq, Repr

/-- The `LimiterServer` struct fields that the admission path reads:
the client `timeout` handed to `AcquireToken` (a `time.Duration` in
nanoseconds) and the backend base URL. -/
structure LimiterServer where
  port : Int
  timeout : Int
  proxiedURL : String
  deriving DecidableEq, Repr

/-- A response status produced by the filter or handler. -/
abbrev Status := Nat

/-- `enforceLimits`: calls `ls.limiter.AcquireToken(ctx, ls.timeout)` —
here the select body on the arm the race resolved to, where the arms that
can fire are those enabled under `acqArmEnabled (decide (ls.timeout ≠ 0))`
because the filter passes its configured timeout — then maps the outcome:
non-nil error ↦ 500 Internal Server Error; `false` with nil error ↦ 503
Service Unavailable; `true` ↦ delegate to `next` with the request
untouched.  Returns the response status and the channel state after the
acquisition. -/
def enforceLimits (ls : LimiterServer) (next : Request → Status)
    (c : ChanState) (arm : AcqArm) (r : Request) : Status × ChanState :=
  let out := acquireToken c arm
  match out.1.2 with
  | some _ => (500, out.2)
  | none => if out.1.1 then (next r, out.2) else (503, out.2)

/-- `eventHandler`: responds 400 Bad Request when `r.Body` is nil, without
calling the backend; otherwise POSTs the body verbatim to the backend's
`/events` endpoint (`post`, returning `none` on a network error and
`some code` on an HTTP response) and either responds 500 Internal Server
Error on error or mirrors the backend's status code. -/
def eventHandler (post : String → Option Status) (r : Request) : Status :=
  match r.body with
  | none => 400
  | some b =>
    match post b with
    | none => 500
    | some code => code

/-- Structural invariant of a limiter run: the buffer never exceeds the
channel capacity; the loop reaches `done` only after cancellation; the
channel is closed only once the loop is done (only `ServeTokens` ever
closes `sender`, right before `break Loop`). -/
def Inv (p : PulseLimiter) (s : SysState) : Prop :=
  s.chan.buf ≤ p.burstCap
    ∧ (s.phase = LoopPhase.done → s.cancelled = true)
    ∧ (s.chan.closed = true → s.phase = LoopPhase.done)

theorem inv_init (p : PulseLimiter) : Inv p initState := by
  refine ⟨Nat.zero_le _, ?_, ?_⟩ <;> intro h <;> exact nomatch h

theorem inv_step {p : PulseLimiter} {s s' : SysState} (hs : Inv p s)
    (h : Step p s s') : Inv p s' := by
  obtain ⟨h1, h2, h3⟩ := hs
  cases h with
  | cancel c ph =>
    refine ⟨h1, fun _ => rfl, fun hcl => ?_⟩
    exact h3 hcl
  | loopClose c =>
    exact ⟨h1, fun _ => rfl, fun _ => rfl⟩
  | loopAdd c cc hlt hop =>
    refine ⟨hlt, ?_, ?_⟩
    · intro hph
      exact nomatch hph
    · intro hcl
      have hcl' : c.closed = true := hcl
      rw [hop] at hcl'
      exact nomatch hcl'
  | loopWake c cc d =>
    refine ⟨h1, ?_, ?_⟩
    · intro hph
      exact nomatch hph
    · intro hcl
      exact nomatch h3 hcl
  | consume c cc ph hpos =>
    exact ⟨Nat.le_trans (Nat.sub_le _ _) h1, h2, h3⟩

theorem reachable_inv {p : PulseLimiter} {s : SysState}
    (h : Reachable p s) : Inv p s := by
  induction h with
  | init => exact inv_init p
  | step _ hstep ih => exact inv_step ih hstep

/-- Only `close` ends the loop: a step that moves the loop to `done`
happens under a cancelled context, closes the channel, and adds nothing. -/
theorem terminal_step {p : PulseLimiter} {s s' : SysState} (h : Step p s s')
    (hnd : s.phase ≠ LoopPhase.done) (hd : s'.phase = LoopPhase.done) :
    s.cancelled = true ∧ s'.chan.closed = true ∧ s'.chan.buf = s.chan.buf := by
  cases h with
  | cancel c ph => exact absurd hd hnd
  | loopClose c => exact ⟨rfl, rfl, rfl⟩
  | loopAdd c cc hlt hop => exact nomatch hd
  | loopWake c cc d => exact nomatch hd
  | consume c cc ph hpos => exact absurd hd hnd

/-- `done` is absorbing: no step restarts a finished loop. -/
theorem done_absorbing {p : PulseLimiter} {s s' : SysState} (h : Step p s s')
    (hd : s.phase = LoopPhase.done) : s'.phase = LoopPhase.done := by
  cases h with
  | cancel c ph => exact hd
  | loopClose c => rfl
  | loopAdd c cc hlt hop => exact nomatch hd
  | loopWake c cc d => exact nomatch hd
  | consume c cc ph hpos => exact hd

/-- Characterisation of any step that grows the buffer: it is the loop's
send, it adds exactly one token, only below capacity, on the open channel,
and it moves the loop from the select into the `time.Sleep(p.interval)`. -/
theorem add_step_charact {p : PulseLimiter} {s s' : SysState}
    (h : Step p s s') (hgrow : s.chan.buf < s'.chan.buf) :
    s'.chan.buf = s.chan.buf + 1 ∧ s.chan.buf < p.burstCap
      ∧ s.phase = LoopPhase.selecting
      ∧ s'.phase = LoopPhase.sleeping p.interval
      ∧ s.chan.closed = false := by
  cases h with
  | cancel c ph => exact absurd hgrow (Nat.lt_irrefl _)
  | loopClose c => exact absurd hgrow (Nat.lt_irrefl _)
  | loopAdd c cc hlt hop => exact ⟨rfl, hlt, rfl, rfl, hop⟩
  | loopWake c cc d => exact absurd hgrow (Nat.lt_irrefl _)
  | consume c cc ph hpos => exact absurd (Nat.lt_of_lt_of_le hgrow (Nat.sub_le _ _)) (Nat.lt_irrefl _)

/-- After the channel is closed no step ever adds a token. -/
theorem closed_no_add {p : PulseLimiter} {s s' : SysState} (h : Step p s s')
    (hcl : s.chan.closed = true) : s'.chan.buf ≤ s.chan.buf := by
  by_contra hgt
  have hgrow : s.chan.buf < s'.chan.buf := Nat.lt_of_not_le hgt
  have hh := add_step_charact h hgrow
  rw [hh.2.2.2.2] at hcl
  exact nomatch hcl

/-- C1: `AcquireToken(ctx, timeout)` with `timeout > 0` races three arms:
the cancellation arm returns `(false, "context canceled")`; the timeout arm
returns `(false, nil)`; the source arm, when a unit is available, consumes
exactly that one unit and returns `(true, nil)`.  With `timeout == 0` the
timeout arm is not installed; the call can then only end via cancellation,
a token arrival, or the container being found closed, which returns
`(false, "channel closed")` — and when nothing of the sort holds no arm is
enabled at all, i.e. the call blocks. -/
theorem C1_acquire_race (cancelled : Bool) (c : ChanState) :
    acquireToken c AcqArm.ctxDone = ((false, some "context canceled"), c)
    ∧ acquireToken c AcqArm.timeFired = ((false, none), c)
    ∧ (0 < c.buf →
        acquireToken c AcqArm.source = ((true, none), ⟨c.buf - 1, c.closed⟩))
    ∧ acqArmEnabled true cancelled c AcqArm.timeFired = true
    ∧ acqArmEnabled false cancelled c AcqArm.timeFired = false
    ∧ (c.closed = true → c.buf = 0 →
        acquireToken c AcqArm.source = ((false, some "channel closed"), c))
    ∧ (∀ arm, acqArmEnabled false cancelled c arm = true →
        acquireToken c arm = ((false, some "context canceled"), c)
        ∨ acquireToken c arm = ((true, none), ⟨c.buf - 1, c.closed⟩)
        ∨ acquireToken c arm = ((false, some "channel closed"), c))
    ∧ (cancelled = false → c.buf = 0 → c.closed = false →
        ∀ arm, acqArmEnabled false cancelled c arm = false) := by
  refine ⟨rfl, rfl, ?_, rfl, rfl, ?_, ?_, ?_⟩
  · intro h
    simp [acquireToken, h]
  · intro _ hb
    simp [acquireToken, hb]
  · intro arm harm
    cases arm with
    | ctxDone => exact Or.inl rfl
    | timeFired => exact nomatch harm
    | source =>
      by_cases hb : 0 < c.buf
      · exact Or.inr (Or.inl (by simp [acquireToken, hb]))
      · exact Or.inr (Or.inr (by simp [acquireToken, hb]))
  · intro hcan hb hcl arm
    cases arm <;> simp [acqArmEnabled, hcan, hb, hcl]

/-- C1 witness: on a channel holding one token, the source arm consumes it
and returns acquired with no error. -/
theorem C1_acquire_race_witness :
    acquireToken ⟨1, false⟩ AcqArm.source = ((true, none), ⟨0, false⟩) :=
  (C1_acquire_race false ⟨1, false⟩).2.2.1 (by decide)

/-- C2: for every configuration accepted by `NewPulseLimiter` and every
interleaving of the generation loop with acquisition calls, the number of
tokens held in the bucket never exceeds `burst` (the count being, by the
embedding of the buffered channel, exactly the container's occupancy
`chan.buf`, which the struct never shadows with a separate counter). -/
theorem C2_capacity_invariant (items burst : Int) (it : IntervalType)
    (p : PulseLimiter) (s : SysState)
    (hp : newPulseLimiter items it burst = Except.ok p)
    (hs : Reachable p s) :
    (s.chan.buf : Int) ≤ burst ∧ s.chan.buf ≤ p.burstCap := by
  have hb : ¬ burst ≤ 0 ∧ p.burstCap = burst.toNat := by
    by_cases h1 : items ≤ 0
    · simp [newPulseLimiter, h1] at hp
    · by_cases h2 : burst ≤ 0
      · simp [newPulseLimiter, h1, h2] at hp
      · simp only [newPulseLimiter, if_neg h1, if_neg h2] at hp
        have h3 := Except.ok.inj hp
        exact ⟨h2, by rw [← h3]⟩
  have hle : s.chan.buf ≤ p.burstCap := (reachable_inv hs).1
  refine ⟨?_, hle⟩
  have h2 : s.chan.buf ≤ burst.toNat := hb.2 ▸ hle
  omega

/-- C2 witness: the invariant instantiated at the configuration
`rate = 1/s, burst = 1` and the initial state. -/
theorem C2_capacity_invariant_witness :
    ((initState.chan.buf : Int) ≤ 1
      ∧ initState.chan.buf ≤ (⟨1000000000, 1⟩ : PulseLimiter).burstCap) :=
  C2_capacity_invariant 1 1 IntervalType.Sec ⟨1000000000, 1⟩ initState
    rfl Reachable.init

/-- C3 counterexample: with `rate = 1/s, burst = 1`, the state in which the
loop added one token, slept, observed cancellation and closed the channel is
reachable; there the container is closed yet still holds the token, and the
receive arm of `AcquireToken` succeeds — Go receives on a closed buffered
channel keep yielding buffered values — so an acquisition after close does
return `(true, nil)`, contradicting the claim that no token is ever read
successfully once the container is closed. -/
theorem C3_counterexample :
    Reachable ⟨1000000000, 1⟩ ⟨⟨1, true⟩, true, LoopPhase.done⟩
    ∧ (acquireToken ⟨1, true⟩ AcqArm.source).1 = (true, none)
    ∧ ¬ (∀ s : SysState, Reachable ⟨1000000000, 1⟩ s → s.chan.closed = true →
          ∀ arm, acqArmEnabled false s.cancelled s.chan arm = true →
            (acquireToken s.chan arm).1.1 = false) := by
  have hreach : Reachable ⟨1000000000, 1⟩ ⟨⟨1, true⟩, true, LoopPhase.done⟩ := by
    have s0 : Reachable ⟨1000000000, 1⟩ initState := Reachable.init
    have s1 := Reachable.step s0 (Step.loopAdd ⟨0, false⟩ false (by decide) rfl)
    have s2 := Reachable.step s1 (Step.loopWake ⟨1, false⟩ false 1000000000)
    have s3 := Reachable.step s2 (Step.cancel ⟨1, false⟩ LoopPhase.selecting)
    exact Reachable.step s3 (Step.loopClose ⟨1, false⟩)
  refine ⟨hreach, rfl, ?_⟩
  intro hclaim
  have hfalse := hclaim ⟨⟨1, true⟩, true, LoopPhase.done⟩ hreach rfl
    AcqArm.source (by decide)
  exact absurd hfalse (by decide)

/-- C3 (amended): the generation loop terminates exactly once, on observing
cancellation, closing the container (the only terminal transition, and
`done` is absorbing); afterwards no step ever adds a token; tokens already
buffered at close time may still be acquired successfully, and any
acquisition that observes the container closed *and drained* returns
not-acquired with the "channel closed" error, never `(true, nil)`. -/
theorem C3_close_terminality (p : PulseLimiter) (s s' : SysState)
    (c : ChanState) (h : Step p s s') :
    (s.phase ≠ LoopPhase.done → s'.phase = LoopPhase.done →
       s.cancelled = true ∧ s'.chan.closed = true)
    ∧ (s.phase = LoopPhase.done → s'.phase = LoopPhase.done)
    ∧ (s.chan.closed = true → s'.chan.buf ≤ s.chan.buf)
    ∧ (c.closed = true → c.buf = 0 →
        acquireToken c AcqArm.source = ((false, some "channel closed"), c)
        ∧ tryAcquireToken c TryArm.source = ((false, some "channel closed"), c)) := by
  refine ⟨fun hnd hd => ⟨(terminal_step h hnd hd).1, (terminal_step h hnd hd).2.1⟩,
    done_absorbing h, closed_no_add h, fun _ hb => ?_⟩
  constructor <;> simp [acquireToken, tryAcquireToken, hb]

/-- C3 witness: the amended statement at a concrete close step and a closed
drained channel. -/
theorem C3_close_terminality_witness :
    acquireToken ⟨0, true⟩ AcqArm.source = ((false, some "channel closed"), ⟨0, true⟩)
    ∧ tryAcquireToken ⟨0, true⟩ TryArm.source
        = ((false, some "channel closed"), ⟨0, true⟩) :=
  (C3_close_terminality ⟨1000000000, 1⟩ ⟨⟨1, false⟩, true, LoopPhase.selecting⟩
    ⟨⟨1, true⟩, true, LoopPhase.done⟩ ⟨0, true⟩
    (Step.loopClose ⟨1, false⟩)).2.2.2 rfl rfl

/-- C4: on each tick of `ServeTokens`: a step that ends the loop happens only
under a fired cancellation, closes the container and adds nothing (the only
terminal transition), and the close transition is enabled whenever
cancellation has fired; any step that adds adds exactly one unit, only below
capacity, and moves the loop into the `time.Sleep(p.interval)` before the
next tick; while the bucket is at capacity no step adds — the pending add
suspends until a consumer removes a unit or the close fires. -/
theorem C4_generation_tick (p : PulseLimiter) (s s' : SysState)
    (c : ChanState) (h : Step p s s') :
    (s.phase ≠ LoopPhase.done → s'.phase = LoopPhase.done →
       s.cancelled = true ∧ s'.chan.closed = true ∧ s'.chan.buf = s.chan.buf)
    ∧ Step p ⟨c, true, LoopPhase.selecting⟩ ⟨⟨c.buf, true⟩, true, LoopPhase.done⟩
    ∧ (s.chan.buf < s'.chan.buf →
        s'.chan.buf = s.chan.buf + 1 ∧ s.chan.buf < p.burstCap
        ∧ s.phase = LoopPhase.selecting
        ∧ s'.phase = LoopPhase.sleeping p.interval)
    ∧ (s.chan.buf = p.burstCap → s'.chan.buf ≤ s.chan.buf) := by
  refine ⟨terminal_step h, Step.loopClose c, ?_, ?_⟩
  · intro hg
    have hh := add_step_charact h hg
    exact ⟨hh.1, hh.2.1, hh.2.2.1, hh.2.2.2.1⟩
  · intro hcap
    by_contra hgt
    have hh := add_step_charact h (Nat.lt_of_not_le hgt)
    omega

/-- C4 witness: a concrete below-capacity add step adds exactly one unit. -/
theorem C4_generation_tick_witness :
    (⟨⟨1, false⟩, false, LoopPhase.sleeping 1000000000⟩ : SysState).chan.buf
      = (⟨⟨0, false⟩, false, LoopPhase.selecting⟩ : SysState).chan.buf + 1 :=
  ((C4_generation_tick ⟨1000000000, 1⟩ ⟨⟨0, false⟩, false, LoopPhase.selecting⟩
    ⟨⟨1, false⟩, false, LoopPhase.sleeping 1000000000⟩ ⟨0, false⟩
    (Step.loopAdd ⟨0, false⟩ false (by decide) rfl)).2.2.1 (by decide)).1

/-- C5: `TryAcquireToken` never suspends — some arm of its select (at worst
the `default` branch) is always ready; when a unit is available the source
arm consumes exactly one and returns `(true, nil)`; when cancellation has
fired the cancellation arm returns `(false, error)`; otherwise — on any
reachable state with no token and no cancellation — the only enabled arm is
the `default` branch, which returns `(false, nil)` immediately with no
state change. -/
theorem C5_try_acquire (cancelled : Bool) (c : ChanState)
    (p : PulseLimiter) (s : SysState) :
    (∃ arm, tryArmEnabled cancelled c arm = true)
    ∧ (0 < c.buf →
        tryAcquireToken c TryArm.source = ((true, none), ⟨c.buf - 1, c.closed⟩))
    ∧ tryAcquireToken c TryArm.ctxDone = ((false, some "context canceled"), c)
    ∧ tryAcquireToken c TryArm.dflt = ((false, none), c)
    ∧ (Reachable p s → s.cancelled = false → s.chan.buf = 0 →
        ∀ arm, tryArmEnabled s.cancelled s.chan arm = true → arm = TryArm.dflt) := by
  refine ⟨?_, ?_, rfl, rfl, ?_⟩
  · cases cancelled with
    | true => exact ⟨TryArm.ctxDone, rfl⟩
    | false =>
      by_cases hb : 0 < c.buf
      · exact ⟨TryArm.source, by simp [tryArmEnabled, hb]⟩
      · cases hcl : c.closed with
        | true => exact ⟨TryArm.source, by simp [tryArmEnabled, hcl]⟩
        | false => exact ⟨TryArm.dflt, by simp [tryArmEnabled, hb, hcl]⟩
  · intro hb
    simp [tryAcquireToken, hb]
  · intro hr hcan hb arm harm
    have hcl : s.chan.closed = false := by
      cases hclosed : s.chan.closed with
      | false => rfl
      | true =>
        have hinv := reachable_inv hr
        have hdone := hinv.2.2 hclosed
        have := hinv.2.1 hdone
        rw [hcan] at this
        exact nomatch this
    cases arm with
    | ctxDone =>
      rw [tryArmEnabled, hcan] at harm
      exact nomatch harm
    | source =>
      rw [tryArmEnabled, hb, hcl] at harm
      exact nomatch harm
    | dflt => rfl

/-- C5 witness: consuming the single available token, and the initial state
(no token, not cancelled) admitting only the default arm. -/
theorem C5_try_acquire_witness :
    tryAcquireToken ⟨1, false⟩ TryArm.source = ((true, none), ⟨0, false⟩)
    ∧ TryArm.dflt = TryArm.dflt :=
  ⟨(C5_try_acquire false ⟨1, false⟩ ⟨1000000000, 1⟩ initState).2.1 (by decide),
   (C5_try_acquire false ⟨0, false⟩ ⟨1000000000, 1⟩ initState).2.2.2.2
     Reachable.init rfl rfl TryArm.dflt rfl⟩

/-- C6: the admission filter acquires with the filter's configured timeout
(the arm that fires is one enabled under `decide (ls.timeout ≠ 0)`), and
maps the outcome: an acquisition error yields 500 and the wrapped handler
is never invoked (the response is the same for every `next`); not-acquired
with no error yields 503, handler again never invoked; success invokes the
wrapped handler on the request unmodified. -/
theorem C6_admission_filter (ls : LimiterServer) (next next' : Request → Status)
    (cancelled : Bool) (c : ChanState) (arm : AcqArm) (r : Request)
    (harm : acqArmEnabled (decide (ls.timeout ≠ 0)) cancelled c arm = true) :
    ((acquireToken c arm).1.2 ≠ none →
       (enforceLimits ls next c arm r).1 = 500
       ∧ enforceLimits ls next c arm r = enforceLimits ls next' c arm r)
    ∧ ((acquireToken c arm).1 = (false, none) →
       (enforceLimits ls next c arm r).1 = 503
       ∧ enforceLimits ls next c arm r = enforceLimits ls next' c arm r)
    ∧ ((acquireToken c arm).1 = (true, none) →
       enforceLimits ls next c arm r = (next r, (acquireToken c arm).2)) := by
  refine ⟨?_, ?_, ?_⟩
  · intro hne
    cases hm : (acquireToken c arm).1.2 with
    | none => exact absurd hm hne
    | some e => exact ⟨by simp [enforceLimits, hm], by simp [enforceLimits, hm]⟩
  · intro hfn
    have hm : (acquireToken c arm).1.2 = none := by rw [hfn]
    have hb : (acquireToken c arm).1.1 = false := by rw [hfn]
    exact ⟨by simp [enforceLimits, hm, hb], by simp [enforceLimits, hm, hb]⟩
  · intro htn
    have hm : (acquireToken c arm).1.2 = none := by rw [htn]
    have hb : (acquireToken c arm).1.1 = true := by rw [htn]
    simp [enforceLimits, hm, hb]

/-- C6 witness: with a token available, the filter admits and the wrapped
handler's response is returned, one token consumed. -/
theorem C6_admission_filter_witness :
    enforceLimits ⟨8080, 500000000, "u"⟩ (fun _ => 200) ⟨1, false⟩
      AcqArm.source ⟨some "x"⟩ = (200, ⟨0, false⟩) :=
  (C6_admission_filter ⟨8080, 500000000, "u"⟩ (fun _ => 200) (fun _ => 201)
    false ⟨1, false⟩ AcqArm.source ⟨some "x"⟩ (by decide)).2.2 (by decide)

/-- C7: for every configuration accepted by `NewPulseLimiter` the computed
refill interval equals `duration(timeUnit) / rate` (Go `int64` division of
nanosecond counts), the enumerated durations being 1ms, 1s and 1min; and
every token insertion is followed by a sleep of exactly that interval. -/
theorem C7_refill_interval (items burst : Int) (it : IntervalType)
    (p : PulseLimiter) (hp : newPulseLimiter items it burst = Except.ok p) :
    p.interval = Int.tdiv (intervalTypeToDuration it) items
    ∧ intervalTypeToDuration IntervalType.Msec = 1000000
    ∧ intervalTypeToDuration IntervalType.Sec = 1000000000
    ∧ intervalTypeToDuration IntervalType.Min = 60000000000
    ∧ (∀ s s' : SysState, Step p s s' → s.chan.buf < s'.chan.buf →
        s'.phase = LoopPhase.sleeping p.interval) := by
  refine ⟨?_, rfl, rfl, rfl, fun s s' h hg => (add_step_charact h hg).2.2.2.1⟩
  by_cases h1 : items ≤ 0
  · simp [newPulseLimiter, h1] at hp
  · by_cases h2 : burst ≤ 0
    · simp [newPulseLimiter, h1, h2] at hp
    · simp only [newPulseLimiter, if_neg h1, if_neg h2] at hp
      have h3 := Except.ok.inj hp
      rw [← h3]

/-- C7 witness: `rate = 2` per second gives an interval of 500ms. -/
theorem C7_refill_interval_witness :
    (⟨500000000, 3⟩ : PulseLimiter).interval
      = Int.tdiv (intervalTypeToDuration IntervalType.Sec) 2 :=
  (C7_refill_interval 2 3 IntervalType.Sec ⟨500000000, 3⟩ rfl).1

/-- C8: `NewPulseLimiter` fails exactly when `rate ≤ 0` or `burst ≤ 0`, and
succeeds for `rate ≥ 1`, `burst ≥ 1`; the configuration errors are confined
to construction — the only errors an acquisition can surface at request
time are "context canceled" and "channel closed". -/
theorem C8_construction_validation (items burst : Int) (it : IntervalType) :
    ((∃ e, newPulseLimiter items it burst = Except.error e)
       ↔ items ≤ 0 ∨ burst ≤ 0)
    ∧ (0 < items → 0 < burst → ∃ q, newPulseLimiter items it burst = Except.ok q)
    ∧ (∀ (c : ChanState) (arm : AcqArm) (e : String),
        (acquireToken c arm).1.2 = some e →
        e = "context canceled" ∨ e = "channel closed")
    ∧ (∀ (c : ChanState) (arm : TryArm) (e : String),
        (tryAcquireToken c arm).1.2 = some e →
        e = "context canceled" ∨ e = "channel closed") := by
  refine ⟨⟨?_, ?_⟩, ?_, ?_, ?_⟩
  · rintro ⟨e, he⟩
    by_cases h1 : items ≤ 0
    · exact Or.inl h1
    · by_cases h2 : burst ≤ 0
      · exact Or.inr h2
      · simp [newPulseLimiter, h1, h2] at he
  · intro hor
    by_cases h1 : items ≤ 0
    · exact ⟨"\x27items\x27 must be positive",
        by simp only [newPulseLimiter, if_pos h1]⟩
    · have h2 : burst ≤ 0 := hor.resolve_left h1
      exact ⟨"\x27burst\x27 must be positive",
        by simp only [newPulseLimiter, if_neg h1, if_pos h2]⟩
  · intro hi hb
    have h1 : ¬ items ≤ 0 := by omega
    have h2 : ¬ burst ≤ 0 := by omega
    exact ⟨⟨Int.tdiv (intervalTypeToDuration it) items, burst.toNat⟩,
      by simp only [newPulseLimiter, if_neg h1, if_neg h2]⟩
  · intro c arm e he
    cases arm with
    | ctxDone => exact Or.inl (Option.some.inj he).symm
    | timeFired => exact nomatch he
    | source =>
      by_cases hb : 0 < c.buf
      · simp only [acquireToken, if_pos hb] at he
        exact nomatch he
      · simp only [acquireToken, if_neg hb] at he
        exact Or.inr (Option.some.inj he).symm
  · intro c arm e he
    cases arm with
    | ctxDone => exact Or.inl (Option.some.inj he).symm
    | source =>
      by_cases hb : 0 < c.buf
      · simp only [tryAcquireToken, if_pos hb] at he
        exact nomatch he
      · simp only [tryAcquireToken, if_neg hb] at he
        exact Or.inr (Option.some.inj he).symm
    | dflt => exact nomatch he

/-- C8 witness: construction succeeds at `rate = 1, burst = 1` and fails at
`rate = 0`. -/
theorem C8_construction_validation_witness :
    (∃ q, newPulseLimiter 1 IntervalType.Msec 1 = Except.ok q)
    ∧ (∃ e, newPulseLimiter 0 IntervalType.Msec 1 = Except.error e) :=
  ⟨(C8_construction_validation 1 1 IntervalType.Msec).2.1 (by decide) (by decide),
   (C8_construction_validation 0 1 IntervalType.Msec).1.mpr (Or.inl (by decide))⟩

/-- C9: the forwarding handler responds 400 on a nil request body without
invoking the backend (same response whatever the backend would do);
responds 500 — distinct from the 503 rate-limit rejection — when the POST
to the backend fails; and otherwise POSTs the body verbatim to the backend
and mirrors the backend's status code back unmodified. -/
theorem C9_event_handler (post post' : String → Option Status)
    (b : String) (code : Status) :
    eventHandler post ⟨none⟩ = 400
    ∧ eventHandler post ⟨none⟩ = eventHandler post' ⟨none⟩
    ∧ (post b = none → eventHandler post ⟨some b⟩ = 500)
    ∧ (post b = some code → eventHandler post ⟨some b⟩ = code)
    ∧ (500 : Status) ≠ 503 := by
  refine ⟨rfl, rfl, ?_, ?_, by decide⟩
  · intro h
    simp [eventHandler, h]
  · intro h
    simp [eventHandler, h]

/-- C9 witness: a failing backend POST yields 500; a backend response 207
is mirrored. -/
theorem C9_event_handler_witness :
    eventHandler (fun _ => none) ⟨some "e"⟩ = 500
    ∧ eventHandler (fun _ => some 207) ⟨some "e"⟩ = 207 :=
  ⟨(C9_event_handler (fun _ => none) (fun _ => none) "e" 0).2.2.1 rfl,
   (C9_event_handler (fun _ => some 207) (fun _ => none) "e" 207).2.2.2.1 rfl⟩

/-- Exhaustive outcomes of `AcquireToken`'s select body over its arms. -/
theorem acquire_cases (c : ChanState) (arm : AcqArm) :
    acquireToken c arm = ((false, some "context canceled"), c)
    ∨ acquireToken c arm = ((false, none), c)
    ∨ (0 < c.buf ∧ acquireToken c arm = ((true, none), ⟨c.buf - 1, c.closed⟩))
    ∨ acquireToken c arm = ((false, some "channel closed"), c) := by
  cases arm with
  | ctxDone => exact Or.inl rfl
  | timeFired => exact Or.inr (Or.inl rfl)
  | source =>
    by_cases hb : 0 < c.buf
    · exact Or.inr (Or.inr (Or.inl ⟨hb, by simp [acquireToken, hb]⟩))
    · exact Or.inr (Or.inr (Or.inr (by simp [acquireToken, hb])))

/-- Exhaustive outcomes of `TryAcquireToken`'s select body over its arms. -/
theorem try_acquire_cases (c : ChanState) (arm : TryArm) :
    tryAcquireToken c arm = ((false, some "context canceled"), c)
    ∨ tryAcquireToken c arm = ((false, none), c)
    ∨ (0 < c.buf ∧ tryAcquireToken c arm = ((true, none), ⟨c.buf - 1, c.closed⟩))
    ∨ tryAcquireToken c arm = ((false, some "channel closed"), c) := by
  cases arm with
  | ctxDone => exact Or.inl rfl
  | dflt => exact Or.inr (Or.inl rfl)
  | source =>
    by_cases hb : 0 < c.buf
    · exact Or.inr (Or.inr (Or.inl ⟨hb, by simp [tryAcquireToken, hb]⟩))
    · exact Or.inr (Or.inr (Or.inr (by simp [tryAcquireToken, hb])))

/-- C10: for every return of `AcquireToken` and of `TryAcquireToken`,
`true` comes only with a nil error and a non-nil error only with `false`;
a `true` return consumes exactly one buffered unit (and leaves the closed
flag alone) and a `false` return leaves the channel untouched. -/
theorem C10_result_consumption (c : ChanState) (arm : AcqArm) (arm' : TryArm) :
    ((acquireToken c arm).1.1 = true →
       (acquireToken c arm).1.2 = none
       ∧ (acquireToken c arm).2.buf + 1 = c.buf
       ∧ (acquireToken c arm).2.closed = c.closed)
    ∧ (∀ e, (acquireToken c arm).1.2 = some e → (acquireToken c arm).1.1 = false)
    ∧ ((acquireToken c arm).1.1 = false → (acquireToken c arm).2 = c)
    ∧ ((tryAcquireToken c arm').1.1 = true →
       (tryAcquireToken c arm').1.2 = none
       ∧ (tryAcquireToken c arm').2.buf + 1 = c.buf
       ∧ (tryAcquireToken c arm').2.closed = c.closed)
    ∧ (∀ e, (tryAcquireToken c arm').1.2 = some e →
        (tryAcquireToken c arm').1.1 = false)
    ∧ ((tryAcquireToken c arm').1.1 = false → (tryAcquireToken c arm').2 = c) := by
  have A1 : (acquireToken c arm).1.1 = true →
      (acquireToken c arm).1.2 = none
      ∧ (acquireToken c arm).2.buf + 1 = c.buf
      ∧ (acquireToken c arm).2.closed = c.closed := by
    intro ht
    rcases acquire_cases c arm with h | h | ⟨hb, h⟩ | h
    · rw [h] at ht
      exact nomatch ht
    · rw [h] at ht
      exact nomatch ht
    · refine ⟨congrArg (fun x => x.1.2) h, ?_, congrArg (fun x => x.2.closed) h⟩
      have h2 : (acquireToken c arm).2.buf = c.buf - 1 :=
        congrArg (fun x => x.2.buf) h
      omega
    · rw [h] at ht
      exact nomatch ht
  have A3 : (acquireToken c arm).1.1 = false → (acquireToken c arm).2 = c := by
    intro hf
    rcases acquire_cases c arm with h | h | ⟨hb, h⟩ | h
    · exact congrArg Prod.snd h
    · exact congrArg Prod.snd h
    · rw [h] at hf
      exact nomatch hf
    · exact congrArg Prod.snd h
  have B1 : (tryAcquireToken c arm').1.1 = true →
      (tryAcquireToken c arm').1.2 = none
      ∧ (tryAcquireToken c arm').2.buf + 1 = c.buf
      ∧ (tryAcquireToken c arm').2.closed = c.closed := by
    intro ht
    rcases try_acquire_cases c arm' with h | h | ⟨hb, h⟩ | h
    · rw [h] at ht
      exact nomatch ht
    · rw [h] at ht
      exact nomatch ht
    · refine ⟨congrArg (fun x => x.1.2) h, ?_, congrArg (fun x => x.2.closed) h⟩
      have h2 : (tryAcquireToken c arm').2.buf = c.buf - 1 :=
        congrArg (fun x => x.2.buf) h
      omega
    · rw [h] at ht
      exact nomatch ht
  have B3 : (tryAcquireToken c arm').1.1 = false → (tryAcquireToken c arm').2 = c := by
    intro hf
    rcases try_acquire_cases c arm' with h | h | ⟨hb, h⟩ | h
    · exact congrArg Prod.snd h
    · exact congrArg Prod.snd h
    · rw [h] at hf
      exact nomatch hf
    · exact congrArg Prod.snd h
  refine ⟨A1, ?_, A3, B1, ?_, B3⟩
  · intro e he
    cases hbt : (acquireToken c arm).1.1 with
    | false => rfl
    | true =>
      rw [(A1 hbt).1] at he
      exact nomatch he
  · intro e he
    cases hbt : (tryAcquireToken c arm').1.1 with
    | false => rfl
    | true =>
      rw [(B1 hbt).1] at he
      exact nomatch he

/-- C10 witness: a successful acquire on a two-token channel leaves one
token; a default-branch try-acquire leaves the channel untouched. -/
theorem C10_result_consumption_witness :
    (acquireToken ⟨2, false⟩ AcqArm.source).2.buf + 1 = 2
    ∧ (tryAcquireToken ⟨0, false⟩ TryArm.dflt).2 = ⟨0, false⟩ :=
  ⟨((C10_result_consumption ⟨2, false⟩ AcqArm.source TryArm.dflt).1
      (by decide)).2.1,
   (C10_result_consumption ⟨0, false⟩ AcqArm.source TryArm.dflt).2.2.2.2.2
      (by decide)⟩

end RateLimit
